import Mathlib

/-!
Shallow embedding of the demand-generation engine of the `sumogen` repository
(`sumogen/demandgen/demand_generator.py` and `sumogen/demandgen/entities.py`).

Conventions of the embedding:
* network edges are identified by natural numbers (sumolib edge objects are
  opaque handles in the source; only identity and the routing oracle matter);
* Python floats are modelled as rationals (`ℚ`), Python ints as `ℤ`/`ℕ`;
* the routing oracle `self.has_path` / `self.get_duration` (which shells out
  to sumolib) is a function parameter `hasPath` / `dur`;
* each call to Python's global random generators (`random`, `np.random`) is
  modelled as reading an explicit stream parameter (a function of the draw
  index); with a fixed seed the source derives all these draws from the single
  seeded generator, so a family of streams is the seed's image;
* Python code that can raise an exception is modelled with `Option`/`Except`.
-/

/-- Python's built-in `round` on a rational: round half to even. -/
def pyRound (q : ℚ) : ℤ :=
  let f := ⌊q⌋
  if q - f < 1/2 then f
  else if 1/2 < q - f then f + 1
  else if f % 2 = 0 then f else f + 1

/-- Trip record from `entities.py` (`Trip`).  `trip_id` is the pair
`(pedestrian id, per-pedestrian sequence number)` rendered in the source as
the string `"{pedestrian_id}_{trip_count}"`. -/
structure Trip where
  trip_id : ℕ × ℕ
  ped_id : ℕ
  start_time : ℤ
  paths : List (ℕ × ℕ)
  times : List ℤ
  durations : List ℤ
  wait_times : List ℤ
  deriving Repr, DecidableEq

/-- Constructor body of `Trip.__init__`: stores the fields, except that
`start_time` becomes `start_time + times[0]` (`times` is always non-empty at
every call site; `headI` returns its first element). -/
def Trip.make (trip_id : ℕ × ℕ) (ped_id : ℕ) (start_time : ℤ)
    (paths : List (ℕ × ℕ)) (times : List ℤ) (durations : List ℤ)
    (wait_times : List ℤ) : Trip :=
  ⟨trip_id, ped_id, start_time + times.headI, paths, times, durations, wait_times⟩

/-- Pedestrian record from `entities.py` (`Pedestrian`). -/
structure Pedestrian where
  id : ℕ
  home : ℕ
  level : ℕ
  trip_count : ℕ
  daily_travel_time : ℚ
  remaining_time : ℚ
  pois : List ℕ
  poi_distr : List ℚ
  deriving Repr, DecidableEq

/-- Constructor body of `Pedestrian.__init__`.  `randIndex` models the draw
`random.randrange(len(pois)-1)` made after the home edge has been removed
from `pois`; the caller (Python) only ever sees draws `< len(pois)-1`, which
theorems about this definition assume as a hypothesis.  Note the source pops
the probability at index `randIndex` of `poi_distr` (NOT the probability of
the home edge) and adds it to the entry at position `randIndex + 1` of the
popped list. -/
def Pedestrian.init (id : ℕ) (home : ℕ) (pois : List ℕ) (poi_distr : List ℚ)
    (level : ℕ) (daily_travel_time : ℚ) (randIndex : ℕ) : Pedestrian :=
  if home ∈ pois then
    let pois' := pois.erase home
    let removed := poi_distr.getD randIndex 0
    let popped := poi_distr.eraseIdx randIndex
    let distr' := popped.set (randIndex + 1) (popped.getD (randIndex + 1) 0 + removed)
    ⟨id, home, level, 0, daily_travel_time, 0, pois', distr'⟩
  else
    ⟨id, home, level, 0, daily_travel_time, 0, pois, poi_distr⟩

/-- The per-minute departure-time weights built in `DemandGenerator.__init__`
when `day_night_cycle` is `False`:
`[round(1/(24*60)) for x in range(24*60)]`. -/
def time_distr_no_cycle : List ℤ :=
  (List.range (24*60)).map (fun _ => pyRound (1/(24*60) : ℚ))

/-- In-place `poi_distr[index] += v` (a no-op out of range; in the source the
index is always in range). -/
def listAddAt (l : List ℚ) (index : ℕ) (v : ℚ) : List ℚ :=
  l.set index (l.getD index 0 + v)

/-- `DemandGenerator.get_poi_distribution`.  `n = len(self.pois)`;
`common` is `self.common_poi_distr` and `personal` is the per-pedestrian
shuffled `normpdf` list `shuffled_distr` (both are random/parametric inputs
here; their `normpdf` values are strictly positive reals in the source).
`randIdx` models `random.randrange(len(poi_distr))` for the deficit fix-up.
Returns `none` when the weights sum to zero, where the source raises
`ZeroDivisionError` (this happens exactly when both favorite flags are off). -/
def get_poi_distribution (n : ℕ) (common_favorites favorites : Bool)
    (common personal : List ℚ) (randIdx : ℕ) : Option (List ℚ) :=
  let d0 : List ℚ := List.replicate n 0
  let d1 := if common_favorites then List.zipWith (· + ·) d0 common else d0
  let d2 := if favorites then List.zipWith (· + ·) d1 personal else d1
  if d2.sum = 0 then none
  else
    let d3 := d2.map (· / d2.sum)
    some (if d3.sum < 1 then listAddAt d3 (randIdx % d3.length) (1 - d3.sum) else d3)

/-- All unordered pairs of a list, in the order produced by
`itertools.combinations(pool, 2)`. -/
def combinations2 : List ℕ → List (ℕ × ℕ)
  | [] => []
  | a :: rest => rest.map (fun b => (a, b)) ++ combinations2 rest

/-- Adjacency of the undirected clique-candidate graph built by
`networkx.Graph.add_edge` calls over the edge list `es`. -/
def adjOf (es : List (ℕ × ℕ)) (a b : ℕ) : Bool :=
  es.contains (a, b) || es.contains (b, a)

/-- Check that every member of `s` is adjacent to every other member. -/
def pairwiseAdj (adj : ℕ → ℕ → Bool) : List ℕ → Bool
  | [] => true
  | a :: rest => rest.all (fun b => adj a b) && pairwiseAdj adj rest

/-- Model of `networkx.find_cliques` on the graph with edge list `es`: the
maximal cliques, enumerated as the non-empty node sublists that are pairwise
adjacent and extendable by no further node.  (`networkx` uses Bron–Kerbosch;
only which cliques exist, and that the list is empty exactly on the empty
graph, matters to the source: `list(nx.find_cliques(poi_G))[0]`.) -/
def find_cliques (es : List (ℕ × ℕ)) : List (List ℕ) :=
  let nodes := (es.map Prod.fst ++ es.map Prod.snd).dedup
  let adj := adjOf es
  nodes.sublists.filter (fun s =>
    !s.isEmpty && pairwiseAdj adj s
      && (nodes.all (fun v => s.contains v || !s.all (fun b => adj v b))))

/-- `DemandGenerator.get_core_pois`.  `pool` is the sample drawn by
`np.random.choice(edges, size=self.nr_core_pois, replace=False)` (part of the
random draw), `hasPath` the routing oracle `self.has_path`.  When the clique
list is empty the source's `list(nx.find_cliques(poi_G))[0]` raises a bare
`IndexError`; this is modelled as `Except.error "IndexError"`. -/
def get_core_pois (pool : List ℕ) (hasPath : ℕ → ℕ → Bool) :
    Except String (List ℕ) :=
  let possible_edges := combinations2 pool
  let poi_edges := possible_edges.filter
    (fun pr => hasPath pr.1 pr.2 && hasPath pr.2 pr.1)
  match find_cliques poi_edges with
  | [] => .error "IndexError"
  | c :: _ => .ok c

/-- The while-loop of `DemandGenerator.get_pois`.  `choice step` models the
draw behind `random.choice(edges)` at iteration `step` (reduced mod the pool
size); the chosen candidate is removed from `edges` and appended to `pois`
iff it is bidirectionally reachable with `anchor` (`core_pois[0]`).  The
`fuel` argument only bounds the recursion; called with `fuel = edges.length`
it is exact, since every iteration removes one element of `edges`. -/
def poisLoop (hasPath : ℕ → ℕ → Bool) (anchor nr_pois : ℕ) (choice : ℕ → ℕ) :
    ℕ → ℕ → List ℕ → List ℕ → List ℕ
  | 0, _, _, pois => pois
  | fuel + 1, step, edges, pois =>
    if 0 < edges.length ∧ (nr_pois = 0 ∨ pois.length < nr_pois) then
      let poi_candidate := edges.getD (choice step % edges.length) 0
      let edges' := edges.erase poi_candidate
      if hasPath poi_candidate anchor && hasPath anchor poi_candidate then
        poisLoop hasPath anchor nr_pois choice fuel (step + 1) edges'
          (pois ++ [poi_candidate])
      else
        poisLoop hasPath anchor nr_pois choice fuel (step + 1) edges' pois
    else pois

/-- `DemandGenerator.get_pois`.  `edges` is the result of
`get_connected_edges` (the edges of the largest pedestrian-accessible
connected component of the undirected network graph), taken as input here;
`pool` is the core-candidate sample (see `get_core_pois`). -/
def get_pois (hasPath : ℕ → ℕ → Bool) (pool : List ℕ) (nr_pois : ℕ)
    (choice : ℕ → ℕ) (edges : List ℕ) : Except String (List ℕ) :=
  match get_core_pois pool hasPath with
  | .error e => .error e
  | .ok core_pois =>
    .ok (poisLoop hasPath core_pois.headI nr_pois choice edges.length 0 edges [])

/-- The outward-leg while-loop of `DemandGenerator.generate_path_sequence`:
`while len(paths) == 0 or (len(paths) < max_trips and remaining_time > 0)`.
`getPoi k` models the `pedestrian.get_poi()` draw made when `len(paths) = k`;
`dur` models `self.get_duration` (shortest-path length / walk speed, as an
integer).  `fuel` only bounds the recursion; `max_trips + 1` iterations always
suffice, because an iteration with `len(paths) ≥ 1` requires
`len(paths) < max_trips`. -/
def outwardLoop (dur : ℕ → ℕ → ℤ) (getPoi : ℕ → ℕ) (max_trips : ℕ) :
    ℕ → List (ℕ × ℕ) → List ℤ → ℚ → ℕ → List (ℕ × ℕ) × List ℤ × ℚ × ℕ
  | 0, paths, durations, rem, target => (paths, durations, rem, target)
  | fuel + 1, paths, durations, rem, target =>
    if paths.length = 0 ∨ (paths.length < max_trips ∧ 0 < rem) then
      let source := target
      let tgt := getPoi paths.length
      let duration := dur source tgt
      outwardLoop dur getPoi max_trips fuel (paths ++ [(source, tgt)])
        (durations ++ [duration]) (rem - duration) tgt
    else (paths, durations, rem, target)

/-- `DemandGenerator.generate_path_sequence` for a pedestrian with home
`home`, activity level `level` and remaining time `rem`:
`max_trips = round(pedestrian.level / 3)` outward legs at most, then one
final leg back home.  Returns the updated remaining time alongside
`(paths, durations)`. -/
def generate_path_sequence (dur : ℕ → ℕ → ℤ) (getPoi : ℕ → ℕ) (home : ℕ)
    (level : ℕ) (rem : ℚ) : List (ℕ × ℕ) × List ℤ × ℚ :=
  let max_trips := (pyRound ((level : ℚ) / 3)).toNat
  let st := outwardLoop dur getPoi max_trips (max_trips + 1) [] [] rem home
  let source := st.2.2.2
  let duration := dur source home
  (st.1 ++ [(source, home)], st.2.1 ++ [duration], st.2.2.1 - duration)

/-- The `times` accumulation loop of `DemandGenerator.generate_trip`:
`times[t] = times[t-1] + durations[t-1] + wait_times[t-1]`, seeded with the
drawn departure time. -/
def accTimes : ℤ → List (ℤ × ℤ) → List ℤ
  | t, [] => [t]
  | t, (d, w) :: rest => t :: accTimes (t + d + w) rest

/-- `DemandGenerator.generate_trip`.  `waitDraw k` models the `k`-th entry of
`np.random.choice(range(self.average_stay_duration * 2), size=len(paths)-1)`
(a non-negative integer below `2 * average_stay_duration`); `timeDraw` models
the minute index drawn by `np.random.choice(range(int(24*60)), p=self.time_distr)`
(reduced mod `24*60`).  Returns the built `Trip` together with the updated
pedestrian (`remaining_time` decremented by the waits, `trip_count`
incremented). -/
def generate_trip (dur : ℕ → ℕ → ℤ) (getPoi : ℕ → ℕ) (waitDraw : ℕ → ℤ)
    (timeDraw : ℕ) (p : Pedestrian) (day : ℤ) : Trip × Pedestrian :=
  let seq := generate_path_sequence dur getPoi p.home p.level p.remaining_time
  let paths := seq.1
  let durations := seq.2.1
  let wait_times := (List.range (paths.length - 1)).map waitDraw
  let rem := seq.2.2 - ((wait_times.sum : ℤ) : ℚ)
  let time_start : ℤ := ((timeDraw % (24*60) : ℕ) : ℤ) * 60
  let times := accTimes time_start (durations.zip wait_times)
  let trip_id := (p.id, p.trip_count)
  (Trip.make trip_id p.id (day * (24*60*60)) paths times durations wait_times,
   { p with remaining_time := rem, trip_count := p.trip_count + 1 })

/-- One `self.generate_trip(ped, day)` call inside `generate_trips`, with the
random streams indexed by the pedestrian's current `trip_count` (every call
advances the single seeded generator; indexing the draws by the trip counter
keeps distinct calls on distinct stream positions). -/
def genTripAt (dur : ℕ → ℕ → ℤ) (getPoi : ℕ → ℕ → ℕ) (waitDraw : ℕ → ℕ → ℤ)
    (timeDraw : ℕ → ℕ) (p : Pedestrian) (day : ℤ) : Trip × Pedestrian :=
  generate_trip dur (getPoi p.trip_count) (waitDraw p.trip_count)
    (timeDraw p.trip_count) p day

/-- The inner `while ped.remaining_time > 0: ... generate_trip(ped, day)`
loop of `DemandGenerator.generate_trips`, collecting the generated trips in
order.  `fuel` bounds the number of iterations (the source loop terminates
only because trips consume time; an exact bound is irrelevant to the claims
proved about this loop, which hold for every fuel). -/
def tripsLoop (gen : Pedestrian → ℤ → Trip × Pedestrian) (day : ℤ) :
    ℕ → Pedestrian → List Trip × Pedestrian
  | 0, p => ([], p)
  | fuel + 1, p =>
    if 0 < p.remaining_time then
      let tp := gen p day
      let rest := tripsLoop gen day fuel tp.2
      (tp.1 :: rest.1, rest.2)
    else ([], p)

/-- The `for day in range(days)` loop of `DemandGenerator.generate_trips`,
projected onto one pedestrian: each day first adds the daily budget — halved
when `self.week_cycle and day % 7 == 0 or day % 7 == 1`, with Python's
operator precedence `(week_cycle ∧ day % 7 = 0) ∨ day % 7 = 1` — then runs
the trip loop, collecting the emitted trips. -/
def daysLoop (gen : Pedestrian → ℤ → Trip × Pedestrian) (week_cycle : Bool)
    (fuel : ℕ) : List ℕ → Pedestrian → List Trip × Pedestrian
  | [], p => ([], p)
  | day :: rest, p =>
    let p1 := { p with remaining_time := p.remaining_time +
      (if (week_cycle && day % 7 == 0) || day % 7 == 1
        then p.daily_travel_time / 2 else p.daily_travel_time) }
    let dq := tripsLoop gen (day : ℤ) fuel p1
    let rq := daysLoop gen week_cycle fuel rest dq.2
    (dq.1 ++ rq.1, rq.2)

/-- `DemandGenerator.generate_trips`, projected onto a single pedestrian
(each pedestrian's state is touched only by its own `generate_trip` calls, so
the warm-up loop and the per-day loops commute across pedestrians): first the
day-0 warm-up — half a daily budget, then trips generated with `day = -1` and
NOT appended to the output — then the trips of `days` simulated days.
Returns `(warm-up trips, emitted trips, final pedestrian)`. -/
def generate_trips_ped (gen : Pedestrian → ℤ → Trip × Pedestrian)
    (week_cycle : Bool) (days fuel : ℕ) (p : Pedestrian) :
    List Trip × List Trip × Pedestrian :=
  let p0 := { p with remaining_time := p.remaining_time + p.daily_travel_time / 2 }
  let warm := tripsLoop gen (-1) fuel p0
  let em := daysLoop gen week_cycle fuel (List.range days) warm.2
  (warm.1, em.1, em.2)

/-- `DemandGenerator.generate_pedestrians`.  Per pedestrian `i`: the home is
`random.choice(self.pois)` (`homeIdx i`, reduced mod the pool size), the
activity level truncates the clamped normal sample `levelDraw i`
(`int(min(activity_levels, max(0, np.random.normal(mu, sigma))))`), the
daily travel time is `(day_hours/24) * 24*60*60 * (level**2 * 0.01)`, and the
preference distribution comes from `get_poi_distribution` (with the common
list and the per-pedestrian shuffled personal list and fix-up index as draw
inputs).  `initIdx i` is the `randrange` draw inside `Pedestrian.__init__`.
`none` models an uncaught Python exception. -/
def generate_pedestrians (pois : List ℕ) (homeIdx : ℕ → ℕ)
    (levelDraw : ℕ → ℚ) (day_hours : ℚ) (activity_levels : ℕ)
    (common_favorites favorites : Bool) (common : List ℚ)
    (personal : ℕ → List ℚ) (fixIdx : ℕ → ℕ) (initIdx : ℕ → ℕ) (n : ℕ) :
    Option (List Pedestrian) :=
  (List.range n).mapM (fun i =>
    let home := pois.getD (homeIdx i % pois.length) 0
    let level := (min ((activity_levels : ℚ)) (max 0 (levelDraw i))).floor.toNat
    let daily_time := (day_hours / 24) * (24*60*60) * ((level : ℚ)^2 * (1/100))
    (get_poi_distribution pois.length common_favorites favorites common
      (personal i) (fixIdx i)).map (fun poi_distr =>
        Pedestrian.init i home pois poi_distr level daily_time (initIdx i)))

/-- The demand-generation pipeline of `DemandGenerator`: POI selection, then
pedestrian generation, then per-pedestrian trip generation.  Every random
draw is an explicit stream argument; in the source all of them come from the
two global generators seeded exactly once with the configured seed, so the
streams are a function of the seed. -/
def demand_pipeline (hasPath : ℕ → ℕ → Bool) (pool : List ℕ) (nr_pois : ℕ)
    (choice : ℕ → ℕ) (edges : List ℕ) (homeIdx : ℕ → ℕ) (levelDraw : ℕ → ℚ)
    (day_hours : ℚ) (activity_levels : ℕ) (common_favorites favorites : Bool)
    (common : List ℚ) (personal : ℕ → List ℚ) (fixIdx : ℕ → ℕ)
    (initIdx : ℕ → ℕ) (n : ℕ) (dur : ℕ → ℕ → ℤ) (getPoi : ℕ → ℕ → ℕ → ℕ)
    (waitDraw : ℕ → ℕ → ℕ → ℤ) (timeDraw : ℕ → ℕ → ℕ) (week_cycle : Bool)
    (days fuel : ℕ) :
    Option (List ℕ × List Pedestrian × List (List Trip × List Trip × Pedestrian)) :=
  match get_pois hasPath pool nr_pois choice edges with
  | .error _ => none
  | .ok pois =>
    match generate_pedestrians pois homeIdx levelDraw day_hours
        activity_levels common_favorites favorites common personal
        fixIdx initIdx n with
    | none => none
    | some peds =>
      some (pois, peds, peds.map (fun p =>
        generate_trips_ped
          (genTripAt dur (getPoi p.id) (waitDraw p.id) (timeDraw p.id))
          week_cycle days fuel p))

section Lemmas

/-- Sum of an elementwise division. -/
lemma sum_map_div (l : List ℚ) (s : ℚ) : (l.map (· / s)).sum = l.sum / s := by
  induction l with
  | nil => simp
  | cons a t ih => simp [ih, add_div]

/-- `listAddAt` adds `v` to the sum when the index is in range. -/
lemma listAddAt_sum (l : List ℚ) (i : ℕ) (v : ℚ) (h : i < l.length) :
    (listAddAt l i v).sum = l.sum + v := by
  induction l generalizing i with
  | nil => simp at h
  | cons a t ih =>
    cases i with
    | zero =>
      simp only [listAddAt, List.getD_cons_zero, List.set_cons_zero, List.sum_cons]
      ring
    | succ j =>
      have hj : j < t.length := by simpa using h
      have h2 := ih j hj
      simp only [listAddAt] at h2 ⊢
      rw [List.getD_cons_succ, List.set_cons_succ, List.sum_cons, h2, List.sum_cons]
      ring

end Lemmas

/-- C4: every distribution returned by `get_poi_distribution` (any POI count,
any combination of the common/personal bias flags, any weight lists and any
fix-up draw) sums to exactly 1: the combined weights are divided by their
total, and the residual-deficit branch (which would add the deficit to one
random index) preserves this. -/
theorem get_poi_distribution_sum_one (n : ℕ) (cf fav : Bool)
    (common personal : List ℚ) (randIdx : ℕ) (d : List ℚ)
    (h : get_poi_distribution n cf fav common personal randIdx = some d) :
    d.sum = 1 := by
  unfold get_poi_distribution at h
  set d2 := (if fav then
      List.zipWith (· + ·)
        (if cf then List.zipWith (· + ·) (List.replicate n 0) common
          else List.replicate n 0) personal
    else
      (if cf then List.zipWith (· + ·) (List.replicate n 0) common
        else List.replicate n 0)) with hd2
  by_cases hz : d2.sum = 0
  · simp [hz] at h
  · have h3 : ((d2.map (· / d2.sum)).sum) = 1 := by
      rw [sum_map_div, div_self hz]
    simp only [hz, if_false, h3] at h
    simp at h
    rw [← h, h3]

/-- Witness for C4: a concrete two-POI call (common bias on, personal off)
returns the distribution `[1/4, 3/4]`, which sums to 1. -/
theorem get_poi_distribution_sum_one_witness :
    get_poi_distribution 2 true false [1/2, 3/2] [] 0 = some [1/4, 3/4] ∧
    ([1/4, 3/4] : List ℚ).sum = 1 := by
  have h : get_poi_distribution 2 true false [1/2, 3/2] [] 0 = some [1/4, 3/4] := by
    norm_num [get_poi_distribution, listAddAt, List.replicate, List.zipWith]
  exact ⟨h, get_poi_distribution_sum_one 2 true false [1/2, 3/2] [] 0 [1/4, 3/4] h⟩

/-- C6: with `day_night_cycle = False` the per-minute departure-time list the
source builds is `[round(1/(24*60))] * (24*60)`, i.e. all zeros: it is not a
flat uniform distribution and it sums to 0, not 1, so
`np.random.choice(range(24*60), p=time_distr)` cannot draw from it (numpy
raises `ValueError: probabilities do not sum to 1`). -/
theorem time_distr_no_cycle_all_zero :
    time_distr_no_cycle = List.replicate (24*60) 0 ∧
    time_distr_no_cycle.sum = 0 := by
  have h0 : pyRound (1/(24*60) : ℚ) = 0 := by norm_num [pyRound]
  have h1 : time_distr_no_cycle = List.replicate (24*60) 0 := by
    unfold time_distr_no_cycle
    simp only [h0, List.map_const', List.length_range]
  refine ⟨h1, ?_⟩
  rw [h1, List.sum_replicate]
  simp

/-- Removing the entry at an in-range index subtracts it from the sum. -/
lemma sum_eraseIdx (l : List ℚ) (i : ℕ) (h : i < l.length) :
    (l.eraseIdx i).sum = l.sum - l.getD i 0 := by
  induction l generalizing i with
  | nil => simp at h
  | cons a t ih =>
    cases i with
    | zero => simp
    | succ j =>
      have hj : j < t.length := by simpa using h
      rw [List.eraseIdx_cons_succ, List.sum_cons, ih j hj, List.getD_cons_succ,
        List.sum_cons]
      ring

/-- C2 (amended): when the home edge occurs in the (duplicate-free) POI list
and the `randrange(len(pois)-1)` draw is in its legal range, the constructor
removes the home from the personal POI list, and pops the probability at the
RANDOMLY drawn index — not necessarily the home's probability — adding it to
the entry one position later; the resulting distribution has one entry per
remaining POI and its total mass is unchanged (so it still sums to 1 when the
input did).  The claim's words "the home's probability mass is folded" do not
hold (see the counterexample); mass conservation and the length contract do. -/
theorem pedestrian_init_spec (id home : ℕ) (pois : List ℕ)
    (poi_distr : List ℚ) (level : ℕ) (daily : ℚ) (randIndex : ℕ)
    (hmem : home ∈ pois) (hnd : pois.Nodup)
    (hlen : poi_distr.length = pois.length)
    (hidx : randIndex < pois.length - 2) :
    (Pedestrian.init id home pois poi_distr level daily randIndex).pois
        = pois.erase home ∧
    home ∉ (Pedestrian.init id home pois poi_distr level daily randIndex).pois ∧
    (Pedestrian.init id home pois poi_distr level daily randIndex).pois.length
        = pois.length - 1 ∧
    (Pedestrian.init id home pois poi_distr level daily randIndex).poi_distr.length
        = pois.length - 1 ∧
    (Pedestrian.init id home pois poi_distr level daily randIndex).poi_distr.sum
        = poi_distr.sum := by
  have hn : 3 ≤ pois.length := by omega
  have hir : randIndex < poi_distr.length := by omega
  unfold Pedestrian.init
  rw [if_pos hmem]
  have hplen : (poi_distr.eraseIdx randIndex).length = poi_distr.length - 1 := by
    rw [List.length_eraseIdx]
    simp [hir]
  refine ⟨rfl, hnd.not_mem_erase, List.length_erase_of_mem hmem, ?_, ?_⟩
  · rw [List.length_set, hplen, hlen]
  · have hset : randIndex + 1 < (poi_distr.eraseIdx randIndex).length := by
      rw [hplen]; omega
    have := listAddAt_sum (poi_distr.eraseIdx randIndex) (randIndex + 1)
      (poi_distr.getD randIndex 0) hset
    unfold listAddAt at this
    rw [this, sum_eraseIdx poi_distr randIndex hir]
    ring

/-- Counterexample for C2: four POIs `[0,1,2,3]`, home `0` with probability
`2/5`, and the (legal) random index draw `1`.  The constructor pops the
probability `3/10` of POI `2` — not the home's `2/5` — leaving the home's
mass in place: the result is `[2/5, 1/5, 2/5]`, which differs from every
distribution obtainable by removing the home's entry and folding its mass
into one remaining entry (`[7/10, 1/5, 1/10]`, `[3/10, 3/5, 1/10]`,
`[3/10, 1/5, 1/2]`). -/
theorem pedestrian_init_counterexample :
    (Pedestrian.init 0 0 [0,1,2,3] [2/5, 3/10, 1/5, 1/10] 0 0 1).poi_distr
        = [2/5, 1/5, 2/5] ∧
    ([2/5, 1/5, 2/5] : List ℚ) ≠ [7/10, 1/5, 1/10] ∧
    ([2/5, 1/5, 2/5] : List ℚ) ≠ [3/10, 3/5, 1/10] ∧
    ([2/5, 1/5, 2/5] : List ℚ) ≠ [3/10, 1/5, 1/2] := by
  refine ⟨?_, by norm_num, by norm_num, by norm_num⟩
  norm_num [Pedestrian.init, List.eraseIdx]

/-- Witness for C2 (amended): the concrete input of the counterexample
satisfies every hypothesis of `pedestrian_init_spec`. -/
theorem pedestrian_init_spec_witness :
    (0 : ℕ) ∈ [0,1,2,3] ∧ ([0,1,2,3] : List ℕ).Nodup ∧
    ([2/5, 3/10, 1/5, 1/10] : List ℚ).length = ([0,1,2,3] : List ℕ).length ∧
    1 < ([0,1,2,3] : List ℕ).length - 2 ∧
    ((Pedestrian.init 0 0 [0,1,2,3] [2/5, 3/10, 1/5, 1/10] 0 0 1).pois
        = ([0,1,2,3] : List ℕ).erase 0 ∧
      0 ∉ (Pedestrian.init 0 0 [0,1,2,3] [2/5, 3/10, 1/5, 1/10] 0 0 1).pois ∧
      (Pedestrian.init 0 0 [0,1,2,3] [2/5, 3/10, 1/5, 1/10] 0 0 1).pois.length
        = ([0,1,2,3] : List ℕ).length - 1 ∧
      (Pedestrian.init 0 0 [0,1,2,3] [2/5, 3/10, 1/5, 1/10] 0 0 1).poi_distr.length
        = ([0,1,2,3] : List ℕ).length - 1 ∧
      (Pedestrian.init 0 0 [0,1,2,3] [2/5, 3/10, 1/5, 1/10] 0 0 1).poi_distr.sum
        = ([2/5, 3/10, 1/5, 1/10] : List ℚ).sum) :=
  ⟨by decide, by decide, by rfl, by decide,
    pedestrian_init_spec 0 0 [0,1,2,3] [2/5, 3/10, 1/5, 1/10] 0 0 1
      (by decide) (by decide) (by rfl) (by decide)⟩

/-- C7 (amended): when no pair of sampled core candidates is bidirectionally
reachable, the candidate graph gets no edges (and hence no nodes), the clique
list is empty, and `get_core_pois` fails — but with an uncaught `IndexError`
from `list(nx.find_cliques(poi_G))[0]`, not with an
`InsufficientConnectivityError` (no such exception exists in the source). -/
theorem get_core_pois_no_pair_index_error (pool : List ℕ)
    (hasPath : ℕ → ℕ → Bool)
    (h : ∀ pr ∈ combinations2 pool,
      ¬(hasPath pr.1 pr.2 = true ∧ hasPath pr.2 pr.1 = true)) :
    get_core_pois pool hasPath = .error "IndexError" := by
  have hfil : (combinations2 pool).filter
      (fun pr => hasPath pr.1 pr.2 && hasPath pr.2 pr.1) = [] := by
    rw [List.filter_eq_nil_iff]
    intro pr hpr
    have := h pr hpr
    simp only [Bool.and_eq_true]
    tauto
  simp only [get_core_pois, hfil]
  rfl

/-- Counterexample for C7: with two sampled candidates and an oracle that
reports no path whatsoever, `get_core_pois` fails with the modelled
`IndexError`, which is not the `InsufficientConnectivityError` the claim
names (that identifier appears nowhere in the source). -/
theorem get_core_pois_counterexample :
    get_core_pois [0, 1] (fun _ _ => false) = .error "IndexError" ∧
    "IndexError" ≠ "InsufficientConnectivityError" := by
  constructor
  · rfl
  · decide

/-- Witness for C7 (amended): the all-false oracle on the pool `[2, 3]`
satisfies the no-bidirectionally-reachable-pair hypothesis. -/
theorem get_core_pois_no_pair_witness :
    (∀ pr ∈ combinations2 [2, 3],
      ¬((fun _ _ => false : ℕ → ℕ → Bool) pr.1 pr.2 = true ∧
        (fun _ _ => false : ℕ → ℕ → Bool) pr.2 pr.1 = true)) ∧
    get_core_pois [2, 3] (fun _ _ => false) = .error "IndexError" :=
  ⟨by decide, get_core_pois_no_pair_index_error [2, 3] (fun _ _ => false)
    (by decide)⟩

/-- With `nr_pois = 0` the POI-growth loop examines the whole pool and keeps
exactly the candidates bidirectionally reachable with the anchor, in the
random examination order: the result is a permutation of `pois` followed by
the filtered pool. -/
lemma poisLoop_perm (hasPath : ℕ → ℕ → Bool) (anchor : ℕ) (choice : ℕ → ℕ) :
    ∀ fuel step edges pois, edges.length ≤ fuel →
    (poisLoop hasPath anchor 0 choice fuel step edges pois).Perm
      (pois ++ edges.filter (fun e => hasPath e anchor && hasPath anchor e)) := by
  intro fuel
  induction fuel with
  | zero =>
    intro step edges pois h
    have he : edges = [] := List.eq_nil_of_length_eq_zero (Nat.le_zero.mp h)
    subst he
    simp only [poisLoop, List.filter_nil, List.append_nil]
    exact List.Perm.refl _
  | succ n ih =>
    intro step edges pois h
    simp only [poisLoop]
    by_cases he : 0 < edges.length
    · rw [if_pos (by exact ⟨he, Or.inl trivial⟩)]
      have hlt : choice step % edges.length < edges.length := Nat.mod_lt _ he
      have hmem : edges.getD (choice step % edges.length) 0 ∈ edges := by
        rw [List.getD_eq_getElem _ _ hlt]
        exact List.getElem_mem hlt
      have hperm : edges.Perm (edges.getD (choice step % edges.length) 0 ::
          edges.erase (edges.getD (choice step % edges.length) 0)) :=
        List.perm_cons_erase hmem
      have hel : (edges.erase (edges.getD (choice step % edges.length) 0)).length
          ≤ n := by
        rw [List.length_erase_of_mem hmem]
        omega
      by_cases hp : (hasPath (edges.getD (choice step % edges.length) 0) anchor
          && hasPath anchor (edges.getD (choice step % edges.length) 0)) = true
      · rw [if_pos hp]
        refine (ih _ _ _ hel).trans ?_
        have hfil : (edges.filter (fun e => hasPath e anchor && hasPath anchor e)).Perm
            ((edges.getD (choice step % edges.length) 0) ::
              (edges.erase (edges.getD (choice step % edges.length) 0)).filter
                (fun e => hasPath e anchor && hasPath anchor e)) := by
          refine (hperm.filter _).trans ?_
          rw [List.filter_cons, if_pos hp]
        have heq : (pois ++ [edges.getD (choice step % edges.length) 0]) ++
            (edges.erase (edges.getD (choice step % edges.length) 0)).filter
              (fun e => hasPath e anchor && hasPath anchor e)
            = pois ++ ((edges.getD (choice step % edges.length) 0) ::
              (edges.erase (edges.getD (choice step % edges.length) 0)).filter
                (fun e => hasPath e anchor && hasPath anchor e)) := by
          simp
        rw [heq]
        exact (hfil.symm).append_left pois
      · rw [if_neg hp]
        refine (ih _ _ _ hel).trans ?_
        have hfil : ((edges.erase (edges.getD (choice step % edges.length) 0)).filter
            (fun e => hasPath e anchor && hasPath anchor e)).Perm
            (edges.filter (fun e => hasPath e anchor && hasPath anchor e)) := by
          have h2 := (hperm.filter
            (fun e => hasPath e anchor && hasPath anchor e)).symm
          rw [List.filter_cons, if_neg hp] at h2
          exact h2
        exact hfil.append_left pois
    · have he0 : edges = [] := by
        have hz : edges.length = 0 := by omega
        exact List.eq_nil_of_length_eq_zero hz
      subst he0
      simp only [List.length_nil, lt_irrefl, false_and, if_false,
        List.filter_nil, List.append_nil]
      exact List.Perm.refl _

/-- With a positive target the POI-growth loop never exceeds it. -/
lemma poisLoop_length_le (hasPath : ℕ → ℕ → Bool) (anchor nr_pois : ℕ)
    (choice : ℕ → ℕ) (h0 : 0 < nr_pois) :
    ∀ fuel step edges pois, pois.length ≤ nr_pois →
    (poisLoop hasPath anchor nr_pois choice fuel step edges pois).length
      ≤ nr_pois := by
  intro fuel
  induction fuel with
  | zero => intro step edges pois h; simpa [poisLoop] using h
  | succ n ih =>
    intro step edges pois h
    by_cases hcond : 0 < edges.length ∧ (nr_pois = 0 ∨ pois.length < nr_pois)
    · have hplt : pois.length < nr_pois := by
        rcases hcond.2 with h1 | h2
        · omega
        · exact h2
      simp only [poisLoop, if_pos hcond]
      by_cases hp : (hasPath (edges.getD (choice step % edges.length) 0) anchor
          && hasPath anchor (edges.getD (choice step % edges.length) 0)) = true
      · rw [if_pos hp]
        refine ih _ _ _ ?_
        simp
        omega
      · rw [if_neg hp]
        exact ih _ _ _ (le_of_lt hplt)
    · simpa [poisLoop, if_neg hcond] using h

/-- C3 (amended): a successful `get_pois` run returns, when `nr_pois = 0`,
exactly those edges of the largest connected component that pass the
bidirectional anchor-reachability test (a permutation of the filtered
component, NOT the entire component: edges failing the directed check are
dropped — see the counterexample), and, when `nr_pois > 0`, at most
`nr_pois` entries. -/
theorem get_pois_spec (hasPath : ℕ → ℕ → Bool) (pool : List ℕ) (nr_pois : ℕ)
    (choice : ℕ → ℕ) (edges : List ℕ) (pois : List ℕ)
    (h : get_pois hasPath pool nr_pois choice edges = .ok pois) :
    ∃ core, get_core_pois pool hasPath = .ok core ∧
      (nr_pois = 0 → pois.Perm (edges.filter
        (fun e => hasPath e core.headI && hasPath core.headI e))) ∧
      (0 < nr_pois → pois.length ≤ nr_pois) := by
  unfold get_pois at h
  cases hc : get_core_pois pool hasPath with
  | error e => rw [hc] at h; exact absurd h (by simp)
  | ok core =>
    rw [hc] at h
    simp only [Except.ok.injEq] at h
    refine ⟨core, rfl, ?_, ?_⟩
    · intro h0
      subst h0
      rw [← h]
      simpa using poisLoop_perm hasPath core.headI choice edges.length 0 edges []
        (le_refl _)
    · intro hpos
      rw [← h]
      exact poisLoop_length_le hasPath core.headI nr_pois choice hpos
        edges.length 0 edges [] (by simp)

/-- Counterexample for C3: component edges `[0, 1, 2]`, a routing oracle in
which edge `2` can reach no other edge (while every other pair is mutually
reachable, so the undirected component contains all three edges), core sample
`[0, 1]` and `nr_pois = 0`.  Edge `2` fails the bidirectional check against
the anchor (whichever clique member is first), so the returned POI set is
`[0, 1]` — a strict subset, not the entire reachable component. -/
theorem get_pois_counterexample :
    get_pois (fun a b => !(a == 2) || (b == 2)) [0, 1] 0 (fun _ => 0) [0, 1, 2]
      = .ok [0, 1] ∧
    ¬ ([0, 1] : List ℕ).Perm [0, 1, 2] := by
  constructor
  · rfl
  · decide

/-- Witness for C3 (amended): with an everywhere-true oracle the grown POI
set is the whole component `[0, 1, 2]`, and `get_pois_spec` applies to it. -/
theorem get_pois_spec_witness :
    get_pois (fun _ _ => true) [0, 1] 0 (fun _ => 0) [0, 1, 2] = .ok [0, 1, 2] ∧
    (∃ core, get_core_pois [0, 1] (fun _ _ => true) = .ok core ∧
      ((0:ℕ) = 0 → ([0, 1, 2] : List ℕ).Perm ([0, 1, 2].filter
        (fun e => (fun _ _ => true : ℕ → ℕ → Bool) e core.headI
          && (fun _ _ => true : ℕ → ℕ → Bool) core.headI e))) ∧
      (0 < 0 → ([0, 1, 2] : List ℕ).length ≤ 0)) :=
  ⟨by rfl, get_pois_spec (fun _ _ => true) [0, 1] 0 (fun _ => 0) [0, 1, 2]
    [0, 1, 2] (by rfl)⟩

/-- The outward-leg loop never shortens the accumulated leg list. -/
lemma outwardLoop_len_mono (dur : ℕ → ℕ → ℤ) (getPoi : ℕ → ℕ) (m : ℕ) :
    ∀ fuel paths durs rem target, paths.length ≤
      (outwardLoop dur getPoi m fuel paths durs rem target).1.length := by
  intro fuel
  induction fuel with
  | zero => intro paths durs rem target; simp [outwardLoop]
  | succ n ih =>
    intro paths durs rem target
    simp only [outwardLoop]
    by_cases hc : paths.length = 0 ∨ (paths.length < m ∧ 0 < rem)
    · rw [if_pos hc]
      refine le_trans ?_ (ih _ _ _ _)
      simp
    · rw [if_neg hc]

/-- When the fuel exceeds the missing leg count, the loop returns only after
its guard has failed: at least one leg was built, and either the leg cap is
reached or the remaining time is exhausted (the source condition is a
disjunction, not a conjunction). -/
lemma outwardLoop_exit (dur : ℕ → ℕ → ℤ) (getPoi : ℕ → ℕ) (m : ℕ) :
    ∀ fuel paths durs rem target, m < fuel + paths.length →
      1 ≤ (outwardLoop dur getPoi m fuel paths durs rem target).1.length ∧
      (m ≤ (outwardLoop dur getPoi m fuel paths durs rem target).1.length ∨
        (outwardLoop dur getPoi m fuel paths durs rem target).2.2.1 ≤ 0) := by
  intro fuel
  induction fuel with
  | zero =>
    intro paths durs rem target h
    simp only [outwardLoop]
    exact ⟨by omega, Or.inl (by omega)⟩
  | succ n ih =>
    intro paths durs rem target h
    simp only [outwardLoop]
    by_cases hc : paths.length = 0 ∨ (paths.length < m ∧ 0 < rem)
    · rw [if_pos hc]
      refine ih _ _ _ _ ?_
      simp
      omega
    · rw [if_neg hc]
      dsimp only
      push_neg at hc
      obtain ⟨h0, h1⟩ := hc
      refine ⟨by omega, ?_⟩
      by_cases hlt : paths.length < m
      · exact Or.inr (h1 hlt)
      · exact Or.inl (by omega)

/-- The loop stops as soon as the guard fails: the leg list never exceeds
`max 1 max_trips` entries. -/
lemma outwardLoop_upper (dur : ℕ → ℕ → ℤ) (getPoi : ℕ → ℕ) (m : ℕ) :
    ∀ fuel paths durs rem target, paths.length ≤ max 1 m →
      (outwardLoop dur getPoi m fuel paths durs rem target).1.length ≤ max 1 m := by
  intro fuel
  induction fuel with
  | zero => intro paths durs rem target h; simpa [outwardLoop] using h
  | succ n ih =>
    intro paths durs rem target h
    simp only [outwardLoop]
    by_cases hc : paths.length = 0 ∨ (paths.length < m ∧ 0 < rem)
    · rw [if_pos hc]
      refine ih _ _ _ _ ?_
      rcases hc with h0 | h1
      · simp [h0]
      · simp
        omega
    · rw [if_neg hc]
      exact h

/-- The loop extends the leg and duration lists in lockstep. -/
lemma outwardLoop_len_eq (dur : ℕ → ℕ → ℤ) (getPoi : ℕ → ℕ) (m : ℕ) :
    ∀ fuel paths durs rem target, paths.length = durs.length →
      (outwardLoop dur getPoi m fuel paths durs rem target).1.length =
      (outwardLoop dur getPoi m fuel paths durs rem target).2.1.length := by
  intro fuel
  induction fuel with
  | zero => intro paths durs rem target h; simpa [outwardLoop] using h
  | succ n ih =>
    intro paths durs rem target h
    simp only [outwardLoop]
    by_cases hc : paths.length = 0 ∨ (paths.length < m ∧ 0 < rem)
    · rw [if_pos hc]
      refine ih _ _ _ _ ?_
      simp [h]
    · rw [if_neg hc]
      exact h

/-- C1 (amended): in `generate_path_sequence` the outward-leg loop always
performs at least one leg, stops as soon as EITHER the leg count has reached
`max_trips = round(level/3)` OR the remaining time is exhausted (the two
conditions need not hold together: the guard is
`len(paths) == 0 or (len(paths) < max_trips and remaining_time > 0)`), and
exactly one final leg back home is then appended. -/
theorem generate_path_sequence_stop (dur : ℕ → ℕ → ℤ) (getPoi : ℕ → ℕ)
    (home level : ℕ) (rem : ℚ) :
    (generate_path_sequence dur getPoi home level rem).1 =
      (outwardLoop dur getPoi ((pyRound ((level : ℚ) / 3)).toNat)
        ((pyRound ((level : ℚ) / 3)).toNat + 1) [] [] rem home).1 ++
      [((outwardLoop dur getPoi ((pyRound ((level : ℚ) / 3)).toNat)
        ((pyRound ((level : ℚ) / 3)).toNat + 1) [] [] rem home).2.2.2, home)] ∧
    1 ≤ (outwardLoop dur getPoi ((pyRound ((level : ℚ) / 3)).toNat)
        ((pyRound ((level : ℚ) / 3)).toNat + 1) [] [] rem home).1.length ∧
    (outwardLoop dur getPoi ((pyRound ((level : ℚ) / 3)).toNat)
        ((pyRound ((level : ℚ) / 3)).toNat + 1) [] [] rem home).1.length
      ≤ max 1 ((pyRound ((level : ℚ) / 3)).toNat) ∧
    ((pyRound ((level : ℚ) / 3)).toNat ≤
        (outwardLoop dur getPoi ((pyRound ((level : ℚ) / 3)).toNat)
          ((pyRound ((level : ℚ) / 3)).toNat + 1) [] [] rem home).1.length ∨
      (outwardLoop dur getPoi ((pyRound ((level : ℚ) / 3)).toNat)
        ((pyRound ((level : ℚ) / 3)).toNat + 1) [] [] rem home).2.2.1 ≤ 0) ∧
    (generate_path_sequence dur getPoi home level rem).2.1.length =
      (generate_path_sequence dur getPoi home level rem).1.length := by
  have hexit := outwardLoop_exit dur getPoi ((pyRound ((level : ℚ) / 3)).toNat)
    ((pyRound ((level : ℚ) / 3)).toNat + 1) [] [] rem home (by simp)
  have hupper := outwardLoop_upper dur getPoi ((pyRound ((level : ℚ) / 3)).toNat)
    ((pyRound ((level : ℚ) / 3)).toNat + 1) [] [] rem home (by simp)
  have hlen := outwardLoop_len_eq dur getPoi ((pyRound ((level : ℚ) / 3)).toNat)
    ((pyRound ((level : ℚ) / 3)).toNat + 1) [] [] rem home rfl
  refine ⟨rfl, hexit.1, hupper, hexit.2, ?_⟩
  simp [generate_path_sequence, hlen]

/-- Counterexample for C1: a level-9 pedestrian (`max_legs = 3`) whose
remaining time is already 0 performs exactly ONE outward leg and then heads
home — the loop stopped although the leg count (1) never reached
`max_legs = 3`, refuting the claim that advancement stops only once BOTH the
leg cap is reached AND the time is exhausted. -/
theorem generate_path_sequence_counterexample :
    (generate_path_sequence (fun _ _ => 5) (fun _ => 7) 1 9 0).1 =
      [(1, 7), (7, 1)] ∧
    (pyRound ((9 : ℚ) / 3)).toNat = 3 ∧
    ¬ (3 ≤ (generate_path_sequence (fun _ _ => 5) (fun _ => 7) 1 9 0).1.length - 1) := by
  have hm : (pyRound ((9 : ℚ) / 3)).toNat = 3 := by
    have h3 : pyRound ((9 : ℚ) / 3) = 3 := by norm_num [pyRound]
    rw [h3]
    rfl
  have hseq : (generate_path_sequence (fun _ _ => 5) (fun _ => 7) 1 9 0).1 =
      [(1, 7), (7, 1)] := by
    unfold generate_path_sequence
    norm_num [pyRound, outwardLoop]
  refine ⟨hseq, hm, ?_⟩
  rw [hseq]
  decide

/-- C8: a pedestrian with `level = 0` has `max_trips = round(0/3) = 0`, so
every path sequence is exactly one outward leg to the drawn POI followed by
the single return-home leg — never more than 2 legs. -/
theorem generate_path_sequence_level_zero (dur : ℕ → ℕ → ℤ) (getPoi : ℕ → ℕ)
    (home : ℕ) (rem : ℚ) :
    (generate_path_sequence dur getPoi home 0 rem).1 =
      [(home, getPoi 0), (getPoi 0, home)] ∧
    (generate_path_sequence dur getPoi home 0 rem).1.length = 2 := by
  have h : (generate_path_sequence dur getPoi home 0 rem).1 =
      [(home, getPoi 0), (getPoi 0, home)] := by
    unfold generate_path_sequence
    norm_num [pyRound, outwardLoop]
  exact ⟨h, by rw [h]; rfl⟩

/-- The time-accumulation loop produces one entry more than its input pairs. -/
lemma accTimes_length (t : ℤ) (l : List (ℤ × ℤ)) :
    (accTimes t l).length = l.length + 1 := by
  induction l generalizing t with
  | nil => simp [accTimes]
  | cons a rest ih => simp [accTimes, ih]

/-- A path sequence has as many durations as legs. -/
lemma gps_durations_length (dur : ℕ → ℕ → ℤ) (getPoi : ℕ → ℕ) (home level : ℕ)
    (rem : ℚ) :
    (generate_path_sequence dur getPoi home level rem).2.1.length =
    (generate_path_sequence dur getPoi home level rem).1.length := by
  unfold generate_path_sequence
  have h := outwardLoop_len_eq dur getPoi ((pyRound ((level : ℚ) / 3)).toNat)
    ((pyRound ((level : ℚ) / 3)).toNat + 1) [] [] rem home rfl
  simp [h]

/-- A path sequence always contains at least the final home leg. -/
lemma gps_paths_pos (dur : ℕ → ℕ → ℤ) (getPoi : ℕ → ℕ) (home level : ℕ)
    (rem : ℚ) :
    1 ≤ (generate_path_sequence dur getPoi home level rem).1.length := by
  unfold generate_path_sequence
  simp

/-- C5: every Trip built by `generate_trip` satisfies
`len(times) == len(paths) == len(durations)` and
`len(wait_times) == len(paths) - 1`, for every pedestrian, day, routing
oracle and random draw. -/
theorem generate_trip_lengths (dur : ℕ → ℕ → ℤ) (getPoi : ℕ → ℕ)
    (waitDraw : ℕ → ℤ) (timeDraw : ℕ) (p : Pedestrian) (day : ℤ) :
    ((generate_trip dur getPoi waitDraw timeDraw p day).1).times.length =
      ((generate_trip dur getPoi waitDraw timeDraw p day).1).paths.length ∧
    ((generate_trip dur getPoi waitDraw timeDraw p day).1).durations.length =
      ((generate_trip dur getPoi waitDraw timeDraw p day).1).paths.length ∧
    ((generate_trip dur getPoi waitDraw timeDraw p day).1).wait_times.length =
      ((generate_trip dur getPoi waitDraw timeDraw p day).1).paths.length - 1 := by
  have hd := gps_durations_length dur getPoi p.home p.level p.remaining_time
  have hp := gps_paths_pos dur getPoi p.home p.level p.remaining_time
  simp only [generate_trip, Trip.make]
  refine ⟨?_, hd, ?_⟩
  · rw [accTimes_length, List.length_zip, hd, List.length_map, List.length_range]
    omega
  · rw [List.length_map, List.length_range]

/-- Splitting a `range'` interval. -/
lemma range'_add_eq (a m n : ℕ) :
    List.range' a (m + n) = List.range' a m ++ List.range' (a + m) n := by
  induction m generalizing a with
  | zero => simp
  | succ k ih =>
    have h1 : k + 1 + n = (k + n) + 1 := by omega
    rw [h1, List.range'_succ, List.range'_succ, ih (a + 1), List.cons_append]
    have h2 : a + 1 + k = a + (k + 1) := by omega
    rw [h2]

/-- Each pass of the inner trip loop hands out consecutive sequence numbers
starting at the pedestrian's current `trip_count`, increments the counter by
the number of trips generated, and stamps every trip with the pedestrian's
id. -/
lemma tripsLoop_spec (gen : Pedestrian → ℤ → Trip × Pedestrian)
    (hid : ∀ p d, ((gen p d).1).trip_id = (p.id, p.trip_count))
    (hcnt : ∀ p d, ((gen p d).2).trip_count = p.trip_count + 1)
    (hpid : ∀ p d, ((gen p d).2).id = p.id) (day : ℤ) :
    ∀ fuel p,
      ((tripsLoop gen day fuel p).1).map (fun t => t.trip_id.2) =
        List.range' p.trip_count ((tripsLoop gen day fuel p).1).length ∧
      ((tripsLoop gen day fuel p).2).trip_count =
        p.trip_count + ((tripsLoop gen day fuel p).1).length ∧
      ((tripsLoop gen day fuel p).2).id = p.id ∧
      ∀ t ∈ (tripsLoop gen day fuel p).1, t.trip_id.1 = p.id := by
  intro fuel
  induction fuel with
  | zero => intro p; simp [tripsLoop]
  | succ n ih =>
    intro p
    simp only [tripsLoop]
    by_cases hr : 0 < p.remaining_time
    · rw [if_pos hr]
      obtain ⟨ih1, ih2, ih3, ih4⟩ := ih ((gen p day).2)
      dsimp only
      refine ⟨?_, ?_, ?_, ?_⟩
      · rw [List.map_cons, List.length_cons, ih1, hcnt, hid, List.range'_succ]
      · rw [List.length_cons, ih2, hcnt]
        omega
      · rw [ih3, hpid]
      · intro t ht
        rcases List.mem_cons.mp ht with h1 | h2
        · rw [h1, hid]
        · rw [ih4 t h2, hpid]
    · rw [if_neg hr]
      simp

/-- The per-day loop keeps handing out consecutive sequence numbers: budget
top-ups do not touch `trip_count` or `id`. -/
lemma daysLoop_spec (gen : Pedestrian → ℤ → Trip × Pedestrian)
    (hid : ∀ p d, ((gen p d).1).trip_id = (p.id, p.trip_count))
    (hcnt : ∀ p d, ((gen p d).2).trip_count = p.trip_count + 1)
    (hpid : ∀ p d, ((gen p d).2).id = p.id) (wc : Bool) (fuel : ℕ) :
    ∀ ds p,
      ((daysLoop gen wc fuel ds p).1).map (fun t => t.trip_id.2) =
        List.range' p.trip_count ((daysLoop gen wc fuel ds p).1).length ∧
      ((daysLoop gen wc fuel ds p).2).trip_count =
        p.trip_count + ((daysLoop gen wc fuel ds p).1).length ∧
      ((daysLoop gen wc fuel ds p).2).id = p.id ∧
      ∀ t ∈ (daysLoop gen wc fuel ds p).1, t.trip_id.1 = p.id := by
  intro ds
  induction ds with
  | nil => intro p; simp [daysLoop]
  | cons day rest ih =>
    intro p
    simp only [daysLoop]
    set p1 : Pedestrian := { p with remaining_time := p.remaining_time +
      (if (wc && day % 7 == 0) || day % 7 == 1
        then p.daily_travel_time / 2 else p.daily_travel_time) } with hp1
    obtain ⟨t1, t2, t3, t4⟩ := tripsLoop_spec gen hid hcnt hpid (day : ℤ) fuel p1
    obtain ⟨ih1, ih2, ih3, ih4⟩ := ih ((tripsLoop gen (day : ℤ) fuel p1).2)
    have hcnt1 : p1.trip_count = p.trip_count := by rw [hp1]
    have hid1 : p1.id = p.id := by rw [hp1]
    rw [hcnt1] at t1 t2
    rw [hid1] at t3
    refine ⟨?_, ?_, ?_, ?_⟩
    · rw [List.map_append, List.length_append, t1, ih1, t2, range'_add_eq]
    · rw [List.length_append, ih2, t2]
      omega
    · rw [ih3, t3]
    · intro t ht
      rcases List.mem_append.mp ht with h1 | h2
      · rw [t4 t h1, hid1]
      · rw [ih4 t h2, t3]

/-- A generated trip is stamped `(pedestrian id, current trip_count)`. -/
lemma genTripAt_trip_id (dur : ℕ → ℕ → ℤ) (getPoi : ℕ → ℕ → ℕ)
    (waitDraw : ℕ → ℕ → ℤ) (timeDraw : ℕ → ℕ) (p : Pedestrian) (day : ℤ) :
    ((genTripAt dur getPoi waitDraw timeDraw p day).1).trip_id =
      (p.id, p.trip_count) := rfl

/-- `generate_trip` increments the owner's trip counter by exactly one. -/
lemma genTripAt_trip_count (dur : ℕ → ℕ → ℤ) (getPoi : ℕ → ℕ → ℕ)
    (waitDraw : ℕ → ℕ → ℤ) (timeDraw : ℕ → ℕ) (p : Pedestrian) (day : ℤ) :
    ((genTripAt dur getPoi waitDraw timeDraw p day).2).trip_count =
      p.trip_count + 1 := rfl

/-- `generate_trip` never changes the pedestrian's identity. -/
lemma genTripAt_id (dur : ℕ → ℕ → ℤ) (getPoi : ℕ → ℕ → ℕ)
    (waitDraw : ℕ → ℕ → ℤ) (timeDraw : ℕ → ℕ) (p : Pedestrian) (day : ℤ) :
    ((genTripAt dur getPoi waitDraw timeDraw p day).2).id = p.id := rfl

/-- C10: warm-up trips (generated with `day = -1` and discarded) advance
`trip_count` exactly like emitted ones.  For a pedestrian entering
`generate_trips` with `trip_count = 0`, the sequence numbers over warm-up
trips `w` followed by emitted trips `e` are exactly `0, 1, ..., |w|+|e|-1`
(so strictly increasing across all generated trips), the emitted numbers are
`|w|, ..., |w|+|e|-1` in generation order, and whenever at least one warm-up
trip was generated no emitted trip carries sequence number 0. -/
theorem generate_trips_ped_seq_numbers (dur : ℕ → ℕ → ℤ) (getPoi : ℕ → ℕ → ℕ)
    (waitDraw : ℕ → ℕ → ℤ) (timeDraw : ℕ → ℕ) (week_cycle : Bool)
    (days fuel : ℕ) (p : Pedestrian) (w e : List Trip) (q : Pedestrian)
    (h0 : p.trip_count = 0)
    (heq : generate_trips_ped (genTripAt dur getPoi waitDraw timeDraw)
      week_cycle days fuel p = (w, e, q)) :
    (w ++ e).map (fun t => t.trip_id.2) = List.range (w.length + e.length) ∧
    e.map (fun t => t.trip_id.2) = List.range' w.length e.length ∧
    ((w ++ e).map (fun t => t.trip_id.2)).Pairwise (· < ·) ∧
    q.trip_count = w.length + e.length ∧
    (1 ≤ w.length → ∀ t ∈ e, t.trip_id.2 ≠ 0) := by
  unfold generate_trips_ped at heq
  set gen := genTripAt dur getPoi waitDraw timeDraw with hgen
  set p0 : Pedestrian :=
    { p with remaining_time := p.remaining_time + p.daily_travel_time / 2 }
    with hp0
  obtain ⟨t1, t2, t3, t4⟩ := tripsLoop_spec gen
    (genTripAt_trip_id dur getPoi waitDraw timeDraw)
    (genTripAt_trip_count dur getPoi waitDraw timeDraw)
    (genTripAt_id dur getPoi waitDraw timeDraw) (-1) fuel p0
  obtain ⟨d1, d2, d3, d4⟩ := daysLoop_spec gen
    (genTripAt_trip_id dur getPoi waitDraw timeDraw)
    (genTripAt_trip_count dur getPoi waitDraw timeDraw)
    (genTripAt_id dur getPoi waitDraw timeDraw) week_cycle fuel
    (List.range days) ((tripsLoop gen (-1) fuel p0).2)
  have hcnt0 : p0.trip_count = 0 := by rw [hp0]; exact h0
  rw [hcnt0] at t1 t2
  have hw : w = (tripsLoop gen (-1) fuel p0).1 := by
    have := congrArg (fun r => r.1) heq
    exact this.symm
  have he : e = (daysLoop gen week_cycle fuel (List.range days)
      ((tripsLoop gen (-1) fuel p0).2)).1 := by
    have := congrArg (fun r => r.2.1) heq
    exact this.symm
  have hq : q = (daysLoop gen week_cycle fuel (List.range days)
      ((tripsLoop gen (-1) fuel p0).2)).2 := by
    have := congrArg (fun r => r.2.2) heq
    exact this.symm
  rw [t2] at d1 d2
  have hwmap : w.map (fun t => t.trip_id.2) = List.range' 0 w.length := by
    rw [hw]; exact t1
  have hemap : e.map (fun t => t.trip_id.2) = List.range' w.length e.length := by
    rw [he, hw]
    simpa using d1
  have happ : (w ++ e).map (fun t => t.trip_id.2) =
      List.range (w.length + e.length) := by
    rw [List.map_append, hwmap, hemap, List.range_eq_range', range'_add_eq]
    simp
  refine ⟨happ, hemap, ?_, ?_, ?_⟩
  · rw [happ, List.range_eq_range']
    exact List.pairwise_lt_range' 0 (w.length + e.length)
  · rw [hq, d2, he, hw]
    simp
  · intro hw1 t ht
    have hmem : t.trip_id.2 ∈ e.map (fun t => t.trip_id.2) :=
      List.mem_map_of_mem _ ht
    rw [hemap] at hmem
    have := (List.mem_range'_1.mp hmem).1
    omega

/-- A concrete level-0 pedestrian with a 6-second daily budget. -/
def exPed : Pedestrian := ⟨0, 5, 0, 0, 6, 0, [5, 7], [1/2, 1/2]⟩

/-- A concrete one-day run of the trip generator for `exPed` (constant
oracles: every leg lasts 1 second, every wait 1 second, departure minute 0). -/
def exRun : List Trip × List Trip × Pedestrian :=
  generate_trips_ped (genTripAt (fun _ _ => 1) (fun _ _ => 7) (fun _ _ => 1)
    (fun _ => 0)) false 1 5 exPed

/-- Witness for C10 at the concrete run `exRun`. -/
theorem generate_trips_ped_seq_numbers_witness :
    exPed.trip_count = 0 ∧
    ((exRun.1 ++ exRun.2.1).map (fun t => t.trip_id.2) =
        List.range (exRun.1.length + exRun.2.1.length) ∧
      exRun.2.1.map (fun t => t.trip_id.2) =
        List.range' exRun.1.length exRun.2.1.length ∧
      ((exRun.1 ++ exRun.2.1).map (fun t => t.trip_id.2)).Pairwise (· < ·) ∧
      exRun.2.2.trip_count = exRun.1.length + exRun.2.1.length ∧
      (1 ≤ exRun.1.length → ∀ t ∈ exRun.2.1, t.trip_id.2 ≠ 0)) :=
  ⟨rfl, generate_trips_ped_seq_numbers (fun _ _ => 1) (fun _ _ => 7)
    (fun _ _ => 1) (fun _ => 0) false 1 5 exPed exRun.1 exRun.2.1 exRun.2.2
    rfl rfl⟩

/-- The read-only network inputs of the generator: the routing oracle, the
largest-component edge list, and the per-leg duration oracle. -/
structure NetworkModel where
  hasPath : ℕ → ℕ → Bool
  edges : List ℕ
  dur : ℕ → ℕ → ℤ

/-- The configuration parameters of `DemandGenerator.__init__` that the
embedded pipeline consumes (`common` stands for the deterministic
`common_poi_distr` weight list computed from the POI count). -/
structure GenConfig where
  nr_pois : ℕ
  day_hours : ℚ
  activity_levels : ℕ
  common_favorites : Bool
  favorites : Bool
  common : List ℚ
  week_cycle : Bool
  n_pedestrians : ℕ
  days : ℕ
  fuel : ℕ

/-- Every draw the pipeline takes from the two global generators, bundled.
In the source all of these are produced by `random` / `np.random` after the
single `random.seed(seed)` / `np.random.seed(seed)` pair in the constructor,
so for a fixed seed they are a deterministic family. -/
structure RandomDraws where
  pool : List ℕ
  choice : ℕ → ℕ
  homeIdx : ℕ → ℕ
  levelDraw : ℕ → ℚ
  personal : ℕ → List ℚ
  fixIdx : ℕ → ℕ
  initIdx : ℕ → ℕ
  getPoi : ℕ → ℕ → ℕ → ℕ
  waitDraw : ℕ → ℕ → ℕ → ℤ
  timeDraw : ℕ → ℕ → ℕ

/-- One full generator run: POI selection, population generation and trip
generation, with all randomness supplied through `rnd`. -/
def run_generator (net : NetworkModel) (cfg : GenConfig) (rnd : RandomDraws) :
    Option (List ℕ × List Pedestrian ×
      List (List Trip × List Trip × Pedestrian)) :=
  demand_pipeline net.hasPath rnd.pool cfg.nr_pois rnd.choice net.edges
    rnd.homeIdx rnd.levelDraw cfg.day_hours cfg.activity_levels
    cfg.common_favorites cfg.favorites cfg.common rnd.personal rnd.fixIdx
    rnd.initIdx cfg.n_pedestrians net.dur rnd.getPoi rnd.waitDraw rnd.timeDraw
    cfg.week_cycle cfg.days cfg.fuel

/-- C9: determinism.  Model the seeded global generators as a family
`draws : ℕ → RandomDraws` of draw bundles indexed by the seed (the source
seeds `random` and `np.random` once in the constructor and never reseeds).
Two runs with the same seed, the same parameters and the same network input
produce identical POI sets, pedestrian populations and trip schedules — the
whole pipeline is a pure function of `(seed, parameters, network)`. -/
theorem run_generator_deterministic (draws : ℕ → RandomDraws)
    (net₁ net₂ : NetworkModel) (cfg₁ cfg₂ : GenConfig) (seed₁ seed₂ : ℕ)
    (hnet : net₁ = net₂) (hcfg : cfg₁ = cfg₂) (hseed : seed₁ = seed₂) :
    run_generator net₁ cfg₁ (draws seed₁) =
    run_generator net₂ cfg₂ (draws seed₂) := by
  rw [hnet, hcfg, hseed]

/-- Witness for C9: a concrete seeded double run on a 3-edge network. -/
theorem run_generator_deterministic_witness :
    run_generator ⟨fun _ _ => true, [0, 1, 2], fun _ _ => 1⟩
      ⟨0, 12, 10, true, false, [1, 1, 1], true, 1, 1, 3⟩
      ((fun _ => ⟨[0, 1], fun _ => 0, fun _ => 0, fun _ => 5, fun _ => [1, 1, 1],
        fun _ => 0, fun _ => 0, fun _ _ _ => 0, fun _ _ _ => 1, fun _ _ => 0⟩ :
          ℕ → RandomDraws) 42) =
    run_generator ⟨fun _ _ => true, [0, 1, 2], fun _ _ => 1⟩
      ⟨0, 12, 10, true, false, [1, 1, 1], true, 1, 1, 3⟩
      ((fun _ => ⟨[0, 1], fun _ => 0, fun _ => 0, fun _ => 5, fun _ => [1, 1, 1],
        fun _ => 0, fun _ => 0, fun _ _ _ => 0, fun _ _ _ => 1, fun _ _ => 0⟩ :
          ℕ → RandomDraws) 42) :=
  run_generator_deterministic
    (fun _ => ⟨[0, 1], fun _ => 0, fun _ => 0, fun _ => 5, fun _ => [1, 1, 1],
      fun _ => 0, fun _ => 0, fun _ _ _ => 0, fun _ _ _ => 1, fun _ _ => 0⟩)
    ⟨fun _ _ => true, [0, 1, 2], fun _ _ => 1⟩
    ⟨fun _ _ => true, [0, 1, 2], fun _ _ => 1⟩
    ⟨0, 12, 10, true, false, [1, 1, 1], true, 1, 1, 3⟩
    ⟨0, 12, 10, true, false, [1, 1, 1], true, 1, 1, 3⟩
    42 42 rfl rfl rfl
